import Mathlib

/-!
Verification of the stock-ledger program `src/inventory.py`.

The Python module keeps a process-wide dictionary `stock_data : Dict[str, int]`
and exposes validated mutation operations (`add_item`, `remove_item`), queries
(`get_qty`, `check_low_items`) and whole-snapshot persistence (`save_data`,
`load_data`).  We embed it shallowly:

* A Python `dict` preserves insertion order; updating an existing key keeps
  its position and inserting a new key appends it.  We model `stock_data` as
  an ordered association list `List (String × Int)` with operations
  `dictGet` / `dictInsert` / `dictErase` / `dictUpdate` mirroring
  `d.get(k, …)`, `d[k] = v`, `del d[k]`, `d.update(other)`.
* Dynamically typed arguments are modelled by `PyVal` (a string, an
  arbitrary-precision integer, or some other object); `isinstance` checks
  become pattern matches.  Exceptions raised by validation are modelled by
  `Except PyError`, keeping the exception class and message of the source.
* Python's `not item.strip()` is true exactly when every character of `item`
  is whitespace (in particular when `item` is empty); `isBlank` captures it.
* The filesystem is a partial map from path to file content.  A file's
  content is either a parsed JSON value (`FileData.json`) or bytes that fail
  JSON parsing (`FileData.notJson`); the JSON values relevant to this module
  are objects, strings and integers.  `save_data`'s I/O is parameterised by
  a `WriteOutcome` describing whether the write of the temporary file
  succeeds (on failure the source catches `OSError`, logs, and returns).
* The audit-log append in `add_item` (line 36) writes a wall-clock timestamp
  to a caller-supplied sink and is not part of the map semantics; it is
  omitted from the state model.
* `load_data` in the source reports failure by logging at error level and
  clearing the map (the caught `json.JSONDecodeError` / `ValueError` do not
  escape); the returned `LoadResult` records which branch was taken.
-/

/-- A dynamically-typed Python value, as far as this module inspects one:
a `str`, an `int`, or anything else. -/
inductive PyVal where
  | str (s : String)
  | int (n : Int)
  | other
deriving DecidableEq, Repr

/-- Exceptions raised by the module's validation code, with their messages. -/
inductive PyError where
  | valueError (msg : String)
  | typeError (msg : String)
deriving DecidableEq, Repr

/-- `isBlank s` is Python's `not s.strip()`: every character is whitespace
(true for the empty string). -/
def isBlank (s : String) : Bool :=
  s.data.all Char.isWhitespace

/-- The in-memory ledger `stock_data`: an insertion-ordered association list
standing for the Python `Dict[str, int]`. -/
abbrev StockData : Type := List (String × Int)

/-- `stock_data.get(k)` / `k in stock_data`: first binding of `k`. -/
def dictGet : StockData → String → Option Int
  | [], _ => none
  | p :: rest, k => if p.1 = k then some p.2 else dictGet rest k

/-- `stock_data[k] = v`: update the existing binding in place (keeping its
position) or append a new binding at the end, as a Python dict does. -/
def dictInsert : StockData → String → Int → StockData
  | [], k, v => [(k, v)]
  | p :: rest, k, v => if p.1 = k then (k, v) :: rest else p :: dictInsert rest k v

/-- `del stock_data[k]`: drop the binding(s) of `k`. -/
def dictErase : StockData → String → StockData
  | [], _ => []
  | p :: rest, k => if p.1 = k then dictErase rest k else p :: dictErase rest k

/-- `d.update(entries)`: insert the entries left to right. -/
def dictUpdate (d : StockData) (entries : List (String × Int)) : StockData :=
  entries.foldl (fun acc p => dictInsert acc p.1 p.2) d

/-- `_validate_item_qty` (inventory.py lines 20–27): `item` must be a
non-blank string (else `ValueError`), `qty` must be an integer (else
`TypeError`) and non-negative (else `ValueError`).  Returns the checked
pair. -/
def _validate_item_qty (item qty : PyVal) : Except PyError (String × Int) :=
  match item with
  | .str s =>
    if isBlank s then .error (.valueError "item must be a non-empty string")
    else
      match qty with
      | .int n =>
        if n < 0 then .error (.valueError "qty must be non-negative")
        else .ok (s, n)
      | _ => .error (.typeError "qty must be an integer")
  | _ => .error (.valueError "item must be a non-empty string")

/-- `add_item` (lines 30–36): validate, then
`stock_data[item] = stock_data.get(item, 0) + qty`. -/
def add_item (st : StockData) (item qty : PyVal) : Except PyError StockData :=
  match _validate_item_qty item qty with
  | .error e => .error e
  | .ok (s, n) => .ok (dictInsert st s ((dictGet st s).getD 0 + n))

/-- `remove_item` (lines 39–53): validate (`qty` must be a *positive*
integer here, single `ValueError` for both type and range); a missing item
is a warning-level no-op; otherwise subtract, keeping the entry only if the
remainder is strictly positive and deleting the key otherwise. -/
def remove_item (st : StockData) (item qty : PyVal) : Except PyError StockData :=
  match item with
  | .str s =>
    if isBlank s then .error (.valueError "item must be a non-empty string")
    else
      match qty with
      | .int n =>
        if n ≤ 0 then .error (.valueError "qty must be a positive integer")
        else
          match dictGet st s with
          | none => .ok st
          | some cur =>
            if cur - n > 0 then .ok (dictInsert st s (cur - n))
            else .ok (dictErase st s)
      | _ => .error (.valueError "qty must be a positive integer")
  | _ => .error (.valueError "item must be a non-empty string")

/-- `get_qty` (lines 56–60): validate the item, then
`stock_data.get(item, 0)`. -/
def get_qty (st : StockData) (item : PyVal) : Except PyError Int :=
  match item with
  | .str s =>
    if isBlank s then .error (.valueError "item must be a non-empty string")
    else .ok ((dictGet st s).getD 0)
  | _ => .error (.valueError "item must be a non-empty string")

/-- The accumulation loop of `check_low_items` (lines 105–108): collect, in
iteration order, the names whose quantity is below the threshold. -/
def lowLoop : StockData → Int → List String
  | [], _ => []
  | p :: rest, t => if p.2 < t then p.1 :: lowLoop rest t else lowLoop rest t

/-- `check_low_items` (lines 102–109): the threshold must be a non-negative
integer (single `ValueError` for both type and range), then run the loop. -/
def check_low_items (st : StockData) (threshold : PyVal) : Except PyError (List String) :=
  match threshold with
  | .int t =>
    if t < 0 then .error (.valueError "threshold must be a non-negative integer")
    else .ok (lowLoop st t)
  | _ => .error (.valueError "threshold must be a non-negative integer")

/-! ## Mutation sequences

`runOps` replays a list of `add_item` / `remove_item` calls against the map,
starting (for the invariant claims) from the empty dict created at module
load.  A call that raises leaves `stock_data` untouched, because in the
source all validation precedes any mutation; `validRun` says that no call of
the sequence raises, i.e. every call satisfies its preconditions. -/

/-- One call to a mutation operation, with dynamically-typed arguments. -/
inductive Op where
  | add (item qty : PyVal)
  | remove (item qty : PyVal)
deriving DecidableEq, Repr

/-- Apply one call to the map. -/
def applyOp (st : StockData) : Op → Except PyError StockData
  | .add item qty => add_item st item qty
  | .remove item qty => remove_item st item qty

/-- Run one call; a raised exception leaves the map unchanged (validation
precedes mutation in the source). -/
def runOp (st : StockData) (op : Op) : StockData :=
  match applyOp st op with
  | .ok st2 => st2
  | .error _ => st

/-- Replay a sequence of calls. -/
def runOps (st : StockData) (ops : List Op) : StockData :=
  ops.foldl runOp st

/-- Every call of the sequence satisfies its preconditions (none raises). -/
def validRun : StockData → List Op → Bool
  | _, [] => true
  | st, op :: rest =>
    match applyOp st op with
    | .ok st2 => validRun st2 rest
    | .error _ => false

/-! ## Persistence

The filesystem assigns to each path an optional file content.  `json.load`
either yields a JSON value — for this module's purposes an object with
string keys, a string, or an integer — or raises `JSONDecodeError`
(`FileData.notJson`). -/

/-- A parsed JSON document, restricted to the shapes this module inspects. -/
inductive JVal where
  | obj (entries : List (String × JVal))
  | str (s : String)
  | int (n : Int)

/-- Content of an existing file: a JSON document, or bytes on which
`json.load` raises `JSONDecodeError`. -/
inductive FileData where
  | json (v : JVal)
  | notJson

/-- The filesystem: `none` at a path means the path does not exist. -/
abbrev FileSystem : Type := String → Option FileData

/-- Create, overwrite or (with `none`) remove the file at a path. -/
def fsSet (fs : FileSystem) (p : String) (d : Option FileData) : FileSystem :=
  fun q => if q = p then d else fs q

/-- Which branch `load_data` took; the source signals the failure branch by
an error-level log plus clearing the map (the exception is caught). -/
inductive LoadResult where
  | success
  | schemaInvalid
deriving DecidableEq, Repr

/-- Which branch `save_data` took; the source signals the failure branch by
an error-level log (the `OSError` is caught). -/
inductive SaveResult where
  | success
  | ioFailure
deriving DecidableEq, Repr

/-- Outcome of the attempt to write the temporary file in `save_data`:
either it succeeds, or an `OSError` interrupts it leaving the temporary
file holding `leftover` bytes (`none`: the open itself failed and no file
was created). -/
inductive WriteOutcome where
  | ok
  | fail (leftover : Option FileData)

/-- The temporary path `path.with_suffix(path.suffix + ".tmp")` (line 87):
re-appending the path's own suffix makes this the target path plus
`".tmp"`. -/
def tmpName (file : String) : String := file ++ ".tmp"

/-- Line 73's validation, one entry at a time: `isinstance(v, int)` (keys of
a parsed JSON object are always strings). -/
def entryIsInt (p : String × JVal) : Bool :=
  match p.2 with
  | .int _ => true
  | _ => false

/-- The integer entries of a parsed JSON object, in document order. -/
def jObjToStock (entries : List (String × JVal)) : StockData :=
  entries.filterMap fun p =>
    match p.2 with
    | .int n => some (p.1, n)
    | _ => none

/-- The schema check of lines 72–74: the document is an object and every
value is an integer. -/
def schemaOk : FileData → Bool
  | .json (.obj entries) => entries.all entryIsInt
  | _ => false

/-- `load_data` (lines 63–82).  Missing path: log and return, map untouched.
Existing path: parse; on `JSONDecodeError` or failed schema validation the
shared handler logs the error and clears the map; on success
`stock_data.clear(); stock_data.update(data)`. -/
def load_data (st : StockData) (fs : FileSystem) (file : String) :
    StockData × LoadResult :=
  match fs file with
  | none => (st, .success)
  | some .notJson => ([], .schemaInvalid)
  | some (.json v) =>
    match v with
    | .obj entries =>
      if entries.all entryIsInt then (dictUpdate [] (jObjToStock entries), .success)
      else ([], .schemaInvalid)
    | _ => ([], .schemaInvalid)

/-- `json.dump(stock_data, …)`: the map serialised as a flat JSON object in
iteration order. -/
def dumpStock (st : StockData) : FileData :=
  .json (.obj (st.map fun p => (p.1, .int p.2)))

/-- `save_data` (lines 85–93): write the snapshot to the temporary path,
then atomically rename it over the target (`tmp.replace(path)`, the
filesystem's atomic replace).  If an `OSError` interrupts the write, it is
caught and logged: the temporary file may hold partial bytes but the target
is not reached. -/
def save_data (st : StockData) (fs : FileSystem) (file : String) :
    WriteOutcome → FileSystem × SaveResult
  | .ok =>
    let fs1 := fsSet fs (tmpName file) (some (dumpStock st))
    (fsSet (fsSet fs1 (tmpName file) none) file (some (dumpStock st)), .success)
  | .fail none => (fs, .ioFailure)
  | .fail (some leftover) => (fsSet fs (tmpName file) (some leftover), .ioFailure)

/-- The filesystem states visible during the successful
write-temp-then-rename sequence, including the state after a crash in the
middle of the temporary-file write (the temporary file then holds arbitrary
`leftover` bytes): before anything; mid-write of the temporary file; after
the temporary file is complete and closed; after the atomic rename. -/
def save_steps (st : StockData) (fs : FileSystem) (file : String)
    (leftover : Option FileData) : List FileSystem :=
  [ fs,
    fsSet fs (tmpName file) leftover,
    fsSet fs (tmpName file) (some (dumpStock st)),
    fsSet (fsSet fs (tmpName file) none) file (some (dumpStock st)) ]

/-- The spec's validity condition on `add`/`remove`'s first argument: a
string that is neither empty nor whitespace-only (invariant I1's shape).
`validItemArg item = false` is exactly "`item` is not a string or is
empty/whitespace-only". -/
def validItemArg : PyVal → Bool
  | .str s => !(isBlank s)
  | _ => false

/-- The invariant maintained by the mutation operations: every key is
non-blank (I1) and every stored quantity is non-negative.  (Strict
positivity — the spec's I2 — fails: `add_item item 0` may store 0.) -/
def GoodState (st : StockData) : Prop :=
  ∀ p ∈ st, isBlank p.1 = false ∧ 0 ≤ p.2

example : add_item [] (.str "a") (.int 0) = .ok [("a", 0)] := rfl
example : add_item [("a", 2)] (.str "a") (.int 3) = .ok [("a", 5)] := rfl
example : remove_item [("a", 2)] (.str "a") (.int 2) = .ok [] := rfl
example : check_low_items [("a", 2), ("b", 9)] (.int 5) = .ok ["a"] := rfl
example :
    load_data [("a", 1)] (fun _ => none) "inventory.json" =
      ([("a", 1)], .success) := rfl
example :
    load_data [("a", 1)]
      (fun p => if p = "f" then some (.json (.obj [("x", .str "ten")])) else none)
      "f" = ([], .schemaInvalid) := rfl
example :
    load_data []
      (fun p => if p = "f" then some (.json (.obj [("b", .int 2), ("a", .int 7)])) else none)
      "f" = ([("b", 2), ("a", 7)], .success) := rfl
example :
    (save_data [("a", 1)] (fun _ => none) "f" .ok).1 "f" =
      some (.json (.obj [("a", .int 1)])) := rfl

/-! ## Association-list lemmas -/

theorem dictGet_nonneg {st : StockData} (h : GoodState st) (k : String) :
    0 ≤ (dictGet st k).getD 0 := by
  induction st with
  | nil => simp [dictGet]
  | cons p rest ih =>
    simp only [dictGet]
    split
    · exact (h p (List.mem_cons_self p rest)).2
    · exact ih fun q hq => h q (List.mem_cons_of_mem p hq)

theorem mem_dictInsert {st : StockData} {k : String} {v : Int} {p : String × Int}
    (h : p ∈ dictInsert st k v) : p = (k, v) ∨ p ∈ st := by
  induction st with
  | nil => simpa [dictInsert] using h
  | cons q rest ih =>
    simp only [dictInsert] at h
    split at h
    · rcases List.mem_cons.1 h with h1 | h1
      · exact Or.inl h1
      · exact Or.inr (List.mem_cons_of_mem q h1)
    · rcases List.mem_cons.1 h with h1 | h1
      · exact Or.inr (h1 ▸ List.mem_cons_self q rest)
      · rcases ih h1 with h2 | h2
        · exact Or.inl h2
        · exact Or.inr (List.mem_cons_of_mem q h2)

theorem mem_dictErase {st : StockData} {k : String} {p : String × Int}
    (h : p ∈ dictErase st k) : p ∈ st := by
  induction st with
  | nil => simp [dictErase] at h
  | cons q rest ih =>
    simp only [dictErase] at h
    split at h
    · exact List.mem_cons_of_mem q (ih h)
    · rcases List.mem_cons.1 h with h1 | h1
      · exact h1 ▸ List.mem_cons_self q rest
      · exact List.mem_cons_of_mem q (ih h1)

theorem dictGet_dictErase (st : StockData) (k : String) :
    dictGet (dictErase st k) k = none := by
  induction st with
  | nil => simp [dictErase, dictGet]
  | cons q rest ih =>
    simp only [dictErase]
    split
    · exact ih
    · next hne => simp only [dictGet, if_neg hne]; exact ih

theorem dictInsert_of_get_none {st : StockData} {k : String} (v : Int)
    (h : dictGet st k = none) : dictInsert st k v = st ++ [(k, v)] := by
  induction st with
  | nil => rfl
  | cons q rest ih =>
    simp only [dictGet] at h
    split at h
    · exact absurd h (by simp)
    · simp only [dictInsert, if_neg (by assumption), List.cons_append,
        List.cons.injEq, true_and]
      exact ih h

theorem dictGet_append_of_none {st : StockData} {k : String} (st2 : StockData)
    (h : dictGet st k = none) : dictGet (st ++ st2) k = dictGet st2 k := by
  induction st with
  | nil => rfl
  | cons q rest ih =>
    simp only [dictGet] at h
    split at h
    · exact absurd h (by simp)
    · simpa [dictGet, if_neg (by assumption)] using ih h

theorem dictGet_none_of_not_mem {st : StockData} {k : String}
    (h : k ∉ st.map Prod.fst) : dictGet st k = none := by
  induction st with
  | nil => rfl
  | cons q rest ih =>
    simp only [List.map_cons, List.mem_cons, not_or] at h
    have hne : q.1 ≠ k := fun h2 => h.1 h2.symm
    simp only [dictGet, if_neg hne]
    exact ih h.2

theorem dictUpdate_eq_append (entries : List (String × Int)) :
    ∀ acc : StockData, (entries.map Prod.fst).Nodup →
      (∀ k ∈ entries.map Prod.fst, dictGet acc k = none) →
      dictUpdate acc entries = acc ++ entries := by
  induction entries with
  | nil => intro acc _ _; simp [dictUpdate]
  | cons p rest ih =>
    intro acc hnodup habs
    have hinsert : dictInsert acc p.1 p.2 = acc ++ [p] :=
      dictInsert_of_get_none p.2 (habs p.1 (by simp))
    have hrest : ∀ k ∈ rest.map Prod.fst, dictGet (acc ++ [p]) k = none := by
      intro k hk
      rw [dictGet_append_of_none [p] (habs k (by simp [hk]))]
      have hne : p.1 ≠ k := by
        intro hkp
        exact (List.nodup_cons.1 (by simpa using hnodup)).1 (hkp ▸ hk)
      simp [dictGet, hne]
    calc dictUpdate acc (p :: rest)
        = dictUpdate (dictInsert acc p.1 p.2) rest := rfl
      _ = dictUpdate (acc ++ [p]) rest := by rw [hinsert]
      _ = (acc ++ [p]) ++ rest := ih (acc ++ [p])
            (List.nodup_cons.1 (by simpa using hnodup)).2 hrest
      _ = acc ++ (p :: rest) := by simp

theorem lowLoop_eq_filter (st : StockData) (t : Int) :
    lowLoop st t = (st.filter fun p => decide (p.2 < t)).map Prod.fst := by
  induction st with
  | nil => rfl
  | cons p rest ih =>
    by_cases h : p.2 < t
    · simp [lowLoop, List.filter_cons, h, ih]
    · simp [lowLoop, List.filter_cons, h, ih]

/-! ## Invariant preservation by the mutation operations -/

theorem goodState_add_item {st st2 : StockData} {item qty : PyVal}
    (hgood : GoodState st) (h : add_item st item qty = .ok st2) :
    GoodState st2 := by
  cases item with
  | str s =>
    cases qty with
    | int n =>
      simp only [add_item, _validate_item_qty] at h
      by_cases hb : isBlank s
      · simp [hb] at h
      · by_cases hn : n < 0
        · simp [hb, hn] at h
        · simp only [hb, hn, if_false, if_true, Bool.false_eq_true] at h
          cases h
          intro p hp
          rcases mem_dictInsert hp with h1 | h1
          · subst h1
            refine ⟨by simpa using hb, ?_⟩
            have h0 := dictGet_nonneg hgood s
            omega
          · exact hgood p h1
    | str s2 =>
      by_cases hb : isBlank s <;> simp [add_item, _validate_item_qty, hb] at h
    | other =>
      by_cases hb : isBlank s <;> simp [add_item, _validate_item_qty, hb] at h
  | int n => simp [add_item, _validate_item_qty] at h
  | other => simp [add_item, _validate_item_qty] at h

theorem goodState_remove_item {st st2 : StockData} {item qty : PyVal}
    (hgood : GoodState st) (h : remove_item st item qty = .ok st2) :
    GoodState st2 := by
  cases item with
  | str s =>
    cases qty with
    | int n =>
      by_cases hb : isBlank s
      · simp [remove_item, hb] at h
      · by_cases hn : n ≤ 0
        · simp [remove_item, hb, hn] at h
        · cases hcur : dictGet st s with
          | none =>
            simp [remove_item, hb, hn, hcur] at h
            exact h ▸ hgood
          | some cur =>
            by_cases hrem : cur - n > 0
            · simp [remove_item, hb, hn, hcur, hrem] at h
              subst h
              intro p hp
              rcases mem_dictInsert hp with h1 | h1
              · subst h1; exact ⟨by simpa using hb, by omega⟩
              · exact hgood p h1
            · simp [remove_item, hb, hn, hcur, hrem] at h
              subst h
              exact fun p hp => hgood p (mem_dictErase hp)
    | str s2 =>
      by_cases hb : isBlank s <;> simp [remove_item, hb] at h
    | other =>
      by_cases hb : isBlank s <;> simp [remove_item, hb] at h
  | int n => simp [remove_item] at h
  | other => simp [remove_item] at h

theorem goodState_runOp {st : StockData} (op : Op) (hgood : GoodState st) :
    GoodState (runOp st op) := by
  cases op with
  | add item qty =>
    cases h : add_item st item qty with
    | ok st2 => simpa [runOp, applyOp, h] using goodState_add_item hgood h
    | error e => simpa [runOp, applyOp, h] using hgood
  | remove item qty =>
    cases h : remove_item st item qty with
    | ok st2 => simpa [runOp, applyOp, h] using goodState_remove_item hgood h
    | error e => simpa [runOp, applyOp, h] using hgood

theorem goodState_runOps (ops : List Op) :
    ∀ st : StockData, GoodState st → GoodState (runOps st ops) := by
  induction ops with
  | nil => intro st h; exact h
  | cons op rest ih =>
    intro st h
    exact ih (runOp st op) (goodState_runOp op h)

/-! ## Persistence lemmas -/

theorem tmpName_ne (file : String) : file ≠ tmpName file := by
  intro h
  have h2 : file.length = (tmpName file).length := congrArg String.length h
  have h3 : (".tmp" : String).length = 4 := rfl
  rw [tmpName, String.length_append, h3] at h2
  omega

theorem fsSet_same (fs : FileSystem) (p : String) (d : Option FileData) :
    fsSet fs p d p = d := by
  unfold fsSet
  rw [if_pos rfl]

theorem fsSet_other (fs : FileSystem) {p q : String} (d : Option FileData)
    (h : q ≠ p) : fsSet fs p d q = fs q := by
  unfold fsSet
  rw [if_neg h]

theorem dump_entries_all_int (st : StockData) :
    (st.map fun p => (p.1, JVal.int p.2)).all entryIsInt = true := by
  induction st with
  | nil => rfl
  | cons p rest ih => simpa [entryIsInt] using ih

theorem jObjToStock_dump (st : StockData) :
    jObjToStock (st.map fun p => (p.1, JVal.int p.2)) = st := by
  induction st with
  | nil => rfl
  | cons p rest ih => simp [jObjToStock] at ih ⊢; exact ih

/-! ## Claims -/

/-- C1, as frozen, is false on the code: `add("a", 0)` is a valid call
(`add`'s precondition allows quantity 0) on the empty ledger, yet it stores
the entry `("a", 0)`, whose value is not strictly positive.  This refutes
"every value stored in the map is a strictly positive integer" for valid
`add`/`remove` sequences. -/
theorem C1_strict_positivity_counterexample :
    ¬ (∀ ops : List Op, validRun [] ops = true →
        ∀ p ∈ runOps [] ops, isBlank p.1 = false ∧ 0 < p.2) := by
  intro hclaim
  have h := hclaim [.add (.str "a") (.int 0)] (by decide) ("a", 0) (by decide)
  exact absurd h.2 (by decide)

/-- C1 (amended): for every sequence of valid `add`/`remove` calls starting
from the empty ledger, every key in the map is a non-empty, non-blank
string (I1) and every value is a *non-negative* integer.  Strict positivity
(I2) is refuted by `C1_strict_positivity_counterexample`: an `add` with
quantity 0 can store the value 0. -/
theorem C1_ledger_invariant (ops : List Op) (_hvalid : validRun [] ops = true) :
    ∀ p ∈ runOps [] ops, isBlank p.1 = false ∧ 0 ≤ p.2 :=
  goodState_runOps ops [] fun p hp => absurd hp (List.not_mem_nil p)

theorem C1_ledger_invariant_witness :
    isBlank "a" = false ∧ 0 ≤ (1 : Int) :=
  C1_ledger_invariant [.add (.str "a") (.int 2), .remove (.str "a") (.int 1)]
    (by decide) ("a", 1) (by decide)

/-- C2: `add(item, qty)` raises `ValueError("item must be a non-empty
string")` — the spec's `InvalidItem` — when `item` is not a string or is
empty/whitespace-only; raises `TypeError("qty must be an integer")` when
`qty` is not an integer and `ValueError("qty must be non-negative")` when it
is a negative integer — both the spec's `InvalidQuantity`/`TypeError`-style
kind; and otherwise sets `map[item] = map.get(item, 0) + qty`.  In
particular `add(item, 0)` on a ledger where `item` is absent appends the
entry `(item, 0)`, and `quantity_of(item)` then returns 0. -/
theorem C2_add_item_spec (st : StockData) (item qty : PyVal) :
    (validItemArg item = false →
      add_item st item qty = .error (.valueError "item must be a non-empty string")) ∧
    (validItemArg item = true → (∀ n : Int, qty ≠ .int n) →
      add_item st item qty = .error (.typeError "qty must be an integer")) ∧
    (∀ n : Int, validItemArg item = true → qty = .int n → n < 0 →
      add_item st item qty = .error (.valueError "qty must be non-negative")) ∧
    (∀ s n, item = .str s → qty = .int n → isBlank s = false → 0 ≤ n →
      add_item st item qty = .ok (dictInsert st s ((dictGet st s).getD 0 + n))) ∧
    (∀ s, item = .str s → isBlank s = false → dictGet st s = none →
      add_item st item (.int 0) = .ok (st ++ [(s, 0)]) ∧
      get_qty (st ++ [(s, 0)]) item = .ok 0) := by
  refine ⟨?_, ?_, ?_, ?_, ?_⟩
  · intro hbad
    cases item with
    | str s =>
      have hb : isBlank s = true := by simpa [validItemArg] using hbad
      cases qty <;> simp [add_item, _validate_item_qty, hb]
    | int n => simp [add_item, _validate_item_qty]
    | other => simp [add_item, _validate_item_qty]
  · intro hok hnint
    cases item with
    | str s =>
      have hb : isBlank s = false := by simpa [validItemArg] using hok
      cases qty with
      | int n => exact absurd rfl (hnint n)
      | str s2 => simp [add_item, _validate_item_qty, hb]
      | other => simp [add_item, _validate_item_qty, hb]
    | int n => simp [validItemArg] at hok
    | other => simp [validItemArg] at hok
  · intro n hok hq hneg
    subst hq
    cases item with
    | str s =>
      have hb : isBlank s = false := by simpa [validItemArg] using hok
      simp [add_item, _validate_item_qty, hb, hneg]
    | int m => simp [validItemArg] at hok
    | other => simp [validItemArg] at hok
  · intro s n hi hq hb hnn
    subst hi
    subst hq
    simp [add_item, _validate_item_qty, hb, not_lt.2 hnn]
  · intro s hi hb habs
    subst hi
    have h1 := dictInsert_of_get_none (0 : Int) habs
    constructor
    · simp [add_item, _validate_item_qty, hb, habs, h1]
    · have hget : dictGet (st ++ [(s, 0)]) s = some 0 := by
        rw [dictGet_append_of_none [(s, 0)] habs]
        simp [dictGet]
      simp [get_qty, hb, hget]

theorem C2_add_item_spec_witness :
    add_item [] (.str "a") (.int 0) = .ok ([] ++ [("a", 0)]) ∧
    get_qty ([] ++ [("a", 0)]) (.str "a") = .ok 0 :=
  (C2_add_item_spec [] (.str "a") (.int 0)).2.2.2.2 "a" rfl (by decide) rfl

/-- C3: for a non-blank item string and a strictly positive integer
quantity, `remove(item, qty)` on a ledger where `item` is absent returns
without raising and leaves the map unchanged; where `item` is present with
quantity `c`, it stores `c − qty` if that is strictly positive and
otherwise deletes the key, after which `item` is absent and
`quantity_of(item)` returns 0. -/
theorem C3_remove_item_spec (st : StockData) (s : String) (n : Int)
    (hs : isBlank s = false) (hn : 0 < n) :
    (dictGet st s = none → remove_item st (.str s) (.int n) = .ok st) ∧
    (∀ c, dictGet st s = some c → 0 < c - n →
      remove_item st (.str s) (.int n) = .ok (dictInsert st s (c - n))) ∧
    (∀ c, dictGet st s = some c → c - n ≤ 0 →
      remove_item st (.str s) (.int n) = .ok (dictErase st s) ∧
      dictGet (dictErase st s) s = none ∧
      get_qty (dictErase st s) (.str s) = .ok 0) := by
  have hn2 : ¬ n ≤ 0 := not_le.2 hn
  refine ⟨?_, ?_, ?_⟩
  · intro habs
    simp [remove_item, hs, hn2, habs]
  · intro c hc hrem
    simp [remove_item, hs, hn2, hc, hrem]
  · intro c hc hrem
    have hrem2 : ¬ c - n > 0 := not_lt.2 hrem
    refine ⟨by simp [remove_item, hs, hn2, hc, hrem2],
      dictGet_dictErase st s, ?_⟩
    simp [get_qty, hs, dictGet_dictErase st s]

theorem C3_remove_item_spec_witness :
    remove_item [("a", 2)] (.str "a") (.int 5) = .ok (dictErase [("a", 2)] "a") ∧
    dictGet (dictErase [("a", 2)] "a") "a" = none ∧
    get_qty (dictErase [("a", 2)] "a") (.str "a") = .ok 0 :=
  (C3_remove_item_spec [("a", 2)] "a" 5 (by decide) (by decide)).2.2 2 rfl (by decide)

/-- C4: for a ledger state with well-formed map (no duplicate keys — a dict
never has any) whose keys are non-blank and whose quantities are strictly
positive, `save(path)` followed by `load(path)` into a fresh empty ledger
reproduces an identical map (and the load succeeds). -/
theorem C4_save_load_round_trip (st : StockData) (fs : FileSystem) (file : String)
    (hkeys : (st.map Prod.fst).Nodup)
    (_hgood : ∀ p ∈ st, isBlank p.1 = false ∧ 0 < p.2) :
    load_data [] (save_data st fs file .ok).1 file = (st, .success) := by
  have hfile : (save_data st fs file .ok).1 file = some (dumpStock st) := by
    simp [save_data, fsSet_same]
  have hupd : dictUpdate [] st = st := by
    rw [dictUpdate_eq_append st [] hkeys fun k _ => rfl]
    simp
  unfold load_data
  rw [hfile]
  simp only [dumpStock, dump_entries_all_int, if_true, jObjToStock_dump, hupd]

theorem C4_save_load_round_trip_witness :
    load_data []
      ((save_data [("apple", 7), ("pear", 2)] (fun _ => none) "inv.json" .ok).1)
      "inv.json" = ([("apple", 7), ("pear", 2)], .success) :=
  C4_save_load_round_trip [("apple", 7), ("pear", 2)] (fun _ => none) "inv.json"
    (by decide) (by decide)

/-- C5: `load(path)` on an existing file whose content is not a JSON object
with integer values (for example `{"x": "ten"}`, or non-JSON bytes) takes
the `SchemaInvalid` branch — in the source, the shared handler that logs
the error — and clears the in-memory map to empty, whatever it held
before. -/
theorem C5_load_schema_invalid (st : StockData) (fs : FileSystem) (file : String)
    (d : FileData) (hexists : fs file = some d) (hbad : schemaOk d = false) :
    load_data st fs file = ([], .schemaInvalid) := by
  unfold load_data
  rw [hexists]
  cases d with
  | notJson => rfl
  | json v =>
    cases v with
    | obj entries =>
      have hall : entries.all entryIsInt = false := by simpa [schemaOk] using hbad
      simp [hall]
    | str s => rfl
    | int n => rfl

theorem C5_load_schema_invalid_witness :
    load_data [("apple", 3)]
      (fun p => if p = "inv.json" then
        some (.json (.obj [("x", .str "ten")])) else none)
      "inv.json" = ([], .schemaInvalid) :=
  C5_load_schema_invalid [("apple", 3)] _ "inv.json"
    (.json (.obj [("x", .str "ten")])) rfl rfl

/-- C6: if an I/O failure (`OSError`) interrupts `save(path)`'s write of the
temporary file — whether before the file is created or mid-write, leaving
arbitrary bytes in it — the operation takes the `IOFailure` branch (in the
source, the handler that logs the error) and the target path's content is
exactly what it was before the call. -/
theorem C6_save_io_failure (st : StockData) (fs : FileSystem) (file : String)
    (leftover : Option FileData) :
    (save_data st fs file (.fail leftover)).2 = .ioFailure ∧
    (save_data st fs file (.fail leftover)).1 file = fs file := by
  cases leftover with
  | none => exact ⟨rfl, rfl⟩
  | some d => exact ⟨rfl, fsSet_other fs (some d) (tmpName_ne file)⟩

/-- C7: `load(path)` on an existing file that parses as a JSON object with
integer values succeeds and replaces the map with exactly those entries,
with no further validation: nothing requires the keys to be non-blank or
the values to be positive, so a successful load can produce a state
violating the invariants I1/I2 that `add`/`remove` maintain (the witness
loads `{"": 0, "  ": -3}`). -/
theorem C7_load_verbatim (st : StockData) (fs : FileSystem) (file : String)
    (entries : StockData)
    (hkeys : (entries.map Prod.fst).Nodup)
    (hfile : fs file = some (.json (.obj (entries.map fun p => (p.1, .int p.2))))) :
    load_data st fs file = (entries, .success) := by
  have hupd : dictUpdate [] entries = entries := by
    rw [dictUpdate_eq_append entries [] hkeys fun k _ => rfl]
    simp
  unfold load_data
  rw [hfile]
  simp only [dump_entries_all_int, if_true, jObjToStock_dump, hupd]

theorem C7_load_verbatim_witness :
    load_data [("apple", 5)]
      (fun p => if p = "inv.json" then
        some (.json (.obj [("", .int 0), ("  ", .int (-3))])) else none)
      "inv.json" = ([("", 0), ("  ", -3)], .success) ∧
    isBlank "" = true ∧ ¬ (0 < (-3 : Int)) :=
  ⟨C7_load_verbatim [("apple", 5)] _ "inv.json" [("", 0), ("  ", -3)]
      (by decide) rfl,
    by decide, by decide⟩

/-- C8: `below_threshold(threshold)` raises `ValueError("threshold must be
a non-negative integer")` — the spec's `InvalidThreshold` — when the
threshold is not an integer or is negative; otherwise it returns, in the
map's insertion order, exactly the items whose quantity is strictly below
the threshold (the filter of the map, projected to keys), and every
returned name is a key of the map, so absent items never appear. -/
theorem C8_check_low_items_spec (st : StockData) (threshold : PyVal) :
    ((∀ n : Int, threshold ≠ .int n) →
      check_low_items st threshold =
        .error (.valueError "threshold must be a non-negative integer")) ∧
    (∀ n : Int, threshold = .int n → n < 0 →
      check_low_items st threshold =
        .error (.valueError "threshold must be a non-negative integer")) ∧
    (∀ n : Int, threshold = .int n → 0 ≤ n →
      check_low_items st threshold =
        .ok ((st.filter fun p => decide (p.2 < n)).map Prod.fst) ∧
      ∀ name ∈ (st.filter fun p => decide (p.2 < n)).map Prod.fst,
        name ∈ st.map Prod.fst) := by
  refine ⟨?_, ?_, ?_⟩
  · intro hnint
    cases threshold with
    | int n => exact absurd rfl (hnint n)
    | str s => rfl
    | other => rfl
  · intro n ht hneg
    subst ht
    simp [check_low_items, hneg]
  · intro n ht hpos
    subst ht
    refine ⟨by simp [check_low_items, not_lt.2 hpos, lowLoop_eq_filter], ?_⟩
    intro name hname
    rcases List.mem_map.1 hname with ⟨p, hp, hpe⟩
    exact hpe ▸ List.mem_map_of_mem Prod.fst (List.mem_of_mem_filter hp)

theorem C8_check_low_items_spec_witness :
    check_low_items [("a", 2), ("b", 9)] (.int 5) =
      .ok (([("a", 2), ("b", 9)].filter fun p => decide (p.2 < (5 : Int))).map
        Prod.fst) :=
  ((C8_check_low_items_spec [("a", 2), ("b", 9)] (.int 5)).2.2 5 rfl (by decide)).1

/-- C9: `load(path)` on a path that does not exist returns through the
"nothing to load" early exit: it succeeds and leaves the in-memory map
exactly as it was, whatever its prior contents. -/
theorem C9_load_missing_file (st : StockData) (fs : FileSystem) (file : String)
    (h : fs file = none) : load_data st fs file = (st, .success) := by
  unfold load_data
  rw [h]

theorem C9_load_missing_file_witness :
    load_data [("apple", 2)] (fun _ => none) "inventory.json" =
      ([("apple", 2)], .success) :=
  C9_load_missing_file [("apple", 2)] (fun _ => none) "inventory.json" rfl

/-- C10: at every point of the write-temp-then-rename sequence — before
anything happens, after a crash in the middle of the temporary-file write
(leaving arbitrary bytes in the temporary file), after the temporary file
is complete, and after the atomic rename — the target path holds either its
prior content or the complete new snapshot, never anything else.  The
atomicity of the rename itself is that of `Path.replace` (`os.replace`),
the filesystem's atomic replace primitive, which the model takes as one
indivisible step. -/
theorem C10_save_atomicity (st : StockData) (fs : FileSystem) (file : String)
    (leftover : Option FileData) :
    ∀ g ∈ save_steps st fs file leftover,
      g file = fs file ∨ g file = some (dumpStock st) := by
  intro g hg
  have hne := tmpName_ne file
  simp only [save_steps, List.mem_cons, List.not_mem_nil, or_false] at hg
  rcases hg with h | h | h | h
  · exact Or.inl (h ▸ rfl)
  · subst h; exact Or.inl (fsSet_other fs leftover hne)
  · subst h; exact Or.inl (fsSet_other fs _ hne)
  · subst h; exact Or.inr (fsSet_same _ file _)

theorem C10_save_atomicity_witness :
    fsSet (fun _ => none) (tmpName "f") (some FileData.notJson) "f" =
      (fun _ => none : FileSystem) "f" ∨
    fsSet (fun _ => none) (tmpName "f") (some FileData.notJson) "f" =
      some (dumpStock [("a", 1)]) :=
  C10_save_atomicity [("a", 1)] (fun _ => none) "f" (some .notJson)
    (fsSet (fun _ => none) (tmpName "f") (some .notJson))
    (by simp [save_steps])
